import Mathlib

/-!
Verification of the timetable generation and conflict detection core
(`utils/timetable_generator.py`, `utils/conflict_detector.py`).

Clock times are modelled as minutes from midnight (a `Nat` in `[0, 1440)`);
Python `datetime.time` values compare exactly like their minute counts.
Database rows are modelled as lists of plain structures; SQLAlchemy
`filter_by` queries become list filters over those lists.  The calls to
`random.shuffle` are modelled by an `Oracle` supplying one list
transformation per call site and call number; a lawful oracle produces
permutations, exactly as `random.shuffle` does.
-/

namespace Emploi

/-- A session assignment, mirroring the `TimeSlot` model: `group_id` is
nullable, times are minutes from midnight. -/
structure TimeSlot where
  id : Nat
  course_id : Nat
  group_id : Option Nat
  teacher_id : Nat
  room_id : Nat
  day_of_week : Nat
  start_time : Nat
  end_time : Nat
deriving Repr, DecidableEq

/-- A room, mirroring the `Room` model (only the fields the core reads). -/
structure Room where
  id : Nat
  name : String
  capacity : Nat
  room_type : String
deriving Repr, DecidableEq

/-- A teacher, mirroring the `Teacher` model. -/
structure Teacher where
  id : Nat
  full_name : String
deriving Repr, DecidableEq

/-- A declared availability window, mirroring `TeacherAvailability`. -/
structure TeacherAvailability where
  teacher_id : Nat
  day_of_week : Nat
  start_time : Nat
  end_time : Nat
  is_available : Bool
deriving Repr, DecidableEq

/-- A course, mirroring the `Course` model; `teachers` is the
many-to-many qualified-teacher set, `duration_minutes` is nullable. -/
structure Course where
  id : Nat
  name : String
  duration_minutes : Option Nat
  requires_lab : Bool
  weekly_sessions : Nat
  teachers : List Teacher
deriving Repr, DecidableEq

/-- A student group, mirroring the `Group` model; `courses` is its
program (many-to-many). -/
structure Group where
  id : Nat
  name : String
  department_id : Nat
  capacity : Nat
  courses : List Course
deriving Repr, DecidableEq

/-- The read-only snapshot of catalog data and persisted assignments that
one `generate()` call queries. -/
structure Catalog where
  groups : List Group
  rooms : List Room
  availabilities : List TeacherAvailability
  persisted : List TimeSlot
deriving Repr

/-- The constructor arguments of `TimetableGenerator.__init__` that
`generate()` can read (`semester` is stored but, as we prove, never
consulted). -/
structure GenConfig where
  department_id : Nat
  semester : String
  group_id : Nat
deriving Repr

/-- Model of the two `random.shuffle` call sites: call number `n` on list
`l` yields some reordering.  `shuffleNats` serves both the day list and
the start-time list. -/
structure Oracle where
  shuffleRooms : Nat → List Room → List Room
  shuffleNats : Nat → List Nat → List Nat

/-- The trivial oracle: shuffling leaves the list as-is (one possible
outcome of `random.shuffle`). -/
def Oracle.triv : Oracle := ⟨fun _ l => l, fun _ l => l⟩

/-- A lawful oracle returns a permutation of its input, exactly as
`random.shuffle` does. -/
structure Oracle.Lawful (o : Oracle) : Prop where
  rooms_perm : ∀ n l, (o.shuffleRooms n l).Perm l
  nats_perm : ∀ n l, (o.shuffleNats n l).Perm l

/-- `add_minutes`: builds a `datetime` on a dummy date, adds a
`timedelta`, and returns `.time()` — hence the result wraps modulo
24 hours (1440 minutes). -/
def add_minutes (start_time minutes : Nat) : Nat :=
  (start_time + minutes) % 1440

/-- `is_overlap`: two ranges overlap iff `max(start1, start2) <
min(end1, end2)`. -/
def is_overlap (start1 end1 start2 end2 : Nat) : Bool :=
  decide (max start1 start2 < min end1 end2)

/-- The fixed daily grid `slot_starts` (08:00 .. 17:00 in minutes). -/
def slot_starts : List Nat :=
  [480, 540, 600, 660, 720, 780, 840, 900, 960, 1020]

/-- `self.days`, initially Monday..Saturday. -/
def initial_days : List Nat := [0, 1, 2, 3, 4, 5]

/-- `check_group_busy`: the group overlaps some in-memory generated slot
or some persisted slot with the same `group_id` and day. -/
def check_group_busy (persisted generated : List TimeSlot)
    (group_id day s e : Nat) : Bool :=
  generated.any (fun slot =>
      slot.group_id == some group_id && slot.day_of_week == day
        && is_overlap s e slot.start_time slot.end_time)
  || persisted.any (fun slot =>
      slot.group_id == some group_id && slot.day_of_week == day
        && is_overlap s e slot.start_time slot.end_time)

/-- `check_room_busy`: same pattern keyed on `room_id`. -/
def check_room_busy (persisted generated : List TimeSlot)
    (room_id day s e : Nat) : Bool :=
  generated.any (fun slot =>
      slot.room_id == room_id && slot.day_of_week == day
        && is_overlap s e slot.start_time slot.end_time)
  || persisted.any (fun slot =>
      slot.room_id == room_id && slot.day_of_week == day
        && is_overlap s e slot.start_time slot.end_time)

/-- `check_teacher_busy`: same pattern keyed on `teacher_id`. -/
def check_teacher_busy (persisted generated : List TimeSlot)
    (teacher_id day s e : Nat) : Bool :=
  generated.any (fun slot =>
      slot.teacher_id == teacher_id && slot.day_of_week == day
        && is_overlap s e slot.start_time slot.end_time)
  || persisted.any (fun slot =>
      slot.teacher_id == teacher_id && slot.day_of_week == day
        && is_overlap s e slot.start_time slot.end_time)

/-- `check_teacher_preferences`: if no window is declared for this day,
the teacher passes iff they have no window declared for any day at all;
otherwise some available window for the day must fully contain
`[s, e)`. -/
def check_teacher_preferences (avails : List TeacherAvailability)
    (teacher_id day s e : Nat) : Bool :=
  let availabilities := avails.filter (fun a =>
    a.teacher_id == teacher_id && a.day_of_week == day)
  if availabilities.isEmpty then
    (avails.filter (fun a => a.teacher_id == teacher_id)).isEmpty
  else
    availabilities.any (fun a =>
      a.is_available && a.start_time ≤ s && e ≤ a.end_time)

/-- One entry of `self.conflicts` accumulated by the generator. -/
structure FailureEntry where
  course : String
  group : String
  reason : String
deriving Repr, DecidableEq

/-- The failure appended when a course has no qualified teacher. -/
def no_teacher_failure (course : Course) (group : Group) : FailureEntry :=
  ⟨course.name, group.name, "Aucun enseignant assigne a ce cours"⟩

/-- The failure appended when every day and start time was exhausted. -/
def no_slot_failure (course : Course) (group : Group) : FailureEntry :=
  ⟨course.name, group.name, "Impossible de trouver un creneau valide"⟩

/-- The mutable state of one `generate()` run: `generated_slots`,
`conflicts`, the two counters, the (shuffled in place) `self.days`
list, and a counter numbering the shuffle calls made so far. -/
structure GenState where
  generated_slots : List TimeSlot
  conflicts : List FailureEntry
  generated_count : Nat
  failed_count : Nat
  days : List Nat
  ctr : Nat
deriving Repr

/-- The candidate room pool: all rooms whose lab flag matches the
course's `requires_lab` flag exactly. -/
def suitable_rooms_of (rooms : List Room) (course : Course) : List Room :=
  rooms.filter (fun r => ((r.room_type == "Lab") == course.requires_lab))

/-- Effective session duration: `course.duration_minutes if
course.duration_minutes else 60` (Python falsiness: both null and 0
default to 60). -/
def duration_of (course : Course) : Nat :=
  match course.duration_minutes with
  | some d => if d == 0 then 60 else d
  | none => 60

/-- The inner `for start_time in current_starts` loop: returns the
updated state and whether the session got scheduled. -/
def tryStarts (persisted : List TimeSlot) (avails : List TeacherAvailability)
    (group : Group) (course : Course) (suitable_rooms : List Room)
    (day duration_min : Nat) :
    List Nat → GenState → GenState × Bool
  | [], st => (st, false)
  | start_time :: rest, st =>
    let end_time := add_minutes start_time duration_min
    if 1020 < end_time then
      tryStarts persisted avails group course suitable_rooms day duration_min rest st
    else if check_group_busy persisted st.generated_slots group.id day start_time end_time then
      tryStarts persisted avails group course suitable_rooms day duration_min rest st
    else
      match suitable_rooms.find? (fun room =>
          !(check_room_busy persisted st.generated_slots room.id day start_time end_time)) with
      | none =>
        tryStarts persisted avails group course suitable_rooms day duration_min rest st
      | some selected_room =>
        match course.teachers.find? (fun teacher =>
            !(check_teacher_busy persisted st.generated_slots teacher.id day start_time end_time)
              && check_teacher_preferences avails teacher.id day start_time end_time) with
        | none =>
          tryStarts persisted avails group course suitable_rooms day duration_min rest st
        | some selected_teacher =>
          ({ st with
              generated_slots := st.generated_slots ++
                [{ id := 0, course_id := course.id, group_id := some group.id,
                   teacher_id := selected_teacher.id, room_id := selected_room.id,
                   day_of_week := day, start_time := start_time, end_time := end_time }],
              generated_count := st.generated_count + 1 }, true)

/-- The outer `for day in self.days` loop: per day, shuffle a copy of
`slot_starts` and try each start; stop at the first success. -/
def tryDays (o : Oracle) (persisted : List TimeSlot)
    (avails : List TeacherAvailability) (group : Group) (course : Course)
    (suitable_rooms : List Room) (duration_min : Nat) :
    List Nat → GenState → GenState × Bool
  | [], st => (st, false)
  | day :: rest, st =>
    let current_starts := o.shuffleNats st.ctr slot_starts
    let st1 := { st with ctr := st.ctr + 1 }
    match tryStarts persisted avails group course suitable_rooms day duration_min
        current_starts st1 with
    | (st2, true) => (st2, true)
    | (st2, false) =>
      tryDays o persisted avails group course suitable_rooms duration_min rest st2

/-- One session instance of the `for _ in range(sessions_needed)` body:
build and shuffle the room pool, shuffle `self.days` in place, fail at
once if the course has no qualified teacher, otherwise search
day × start-time combinations and record a failure on exhaustion. -/
def placeSession (o : Oracle) (cat : Catalog) (group : Group)
    (course : Course) (duration_min : Nat) (st : GenState) : GenState :=
  let suitable0 := suitable_rooms_of cat.rooms course
  let suitable_rooms := o.shuffleRooms st.ctr suitable0
  let days := o.shuffleNats (st.ctr + 1) st.days
  let st1 := { st with days := days, ctr := st.ctr + 2 }
  if course.teachers.isEmpty then
    { st1 with
        conflicts := st1.conflicts ++ [no_teacher_failure course group],
        failed_count := st1.failed_count + 1 }
  else
    match tryDays o cat.persisted cat.availabilities group course suitable_rooms
        duration_min days st1 with
    | (st2, true) => st2
    | (st2, false) =>
      { st2 with
          conflicts := st2.conflicts ++ [no_slot_failure course group],
          failed_count := st2.failed_count + 1 }

/-- The `for _ in range(sessions_needed)` loop. -/
def placeSessions (o : Oracle) (cat : Catalog) (group : Group)
    (course : Course) (duration_min : Nat) :
    Nat → GenState → GenState
  | 0, st => st
  | n + 1, st =>
    placeSessions o cat group course duration_min n
      (placeSession o cat group course duration_min st)

/-- The `for course in courses` loop of one group. -/
def processCourses (o : Oracle) (cat : Catalog) (group : Group) :
    List Course → GenState → GenState
  | [], st => st
  | course :: rest, st =>
    processCourses o cat group rest
      (placeSessions o cat group course (duration_of course)
        course.weekly_sessions st)

/-- The `for group in groups` loop. -/
def processGroups (o : Oracle) (cat : Catalog) :
    List Group → GenState → GenState
  | [], st => st
  | group :: rest, st =>
    processGroups o cat rest (processCourses o cat group group.courses st)

/-- The target groups: a single group fetched by id when `group_id` is
non-zero, else all groups of the department. -/
def targetGroups (cfg : GenConfig) (cat : Catalog) : List Group :=
  if cfg.group_id != 0 then
    cat.groups.filter (fun g => g.id == cfg.group_id)
  else
    cat.groups.filter (fun g => g.department_id == cfg.department_id)

/-- The result dictionary of `generate()`. -/
inductive GenResult where
  | error (msg : String)
  | ok (generated failed : Nat) (timeslots : List TimeSlot)
      (conflicts : List FailureEntry)
deriving Repr, DecidableEq

/-- The fresh state set up by `__init__`. -/
def initState : GenState :=
  { generated_slots := [], conflicts := [], generated_count := 0,
    failed_count := 0, days := initial_days, ctr := 0 }

/-- `TimetableGenerator.generate()`. -/
def generate (o : Oracle) (cfg : GenConfig) (cat : Catalog) : GenResult :=
  let groups := targetGroups cfg cat
  if groups.isEmpty then
    .error "Aucun groupe trouve"
  else
    let st := processGroups o cat groups initState
    .ok st.generated_count st.failed_count st.generated_slots st.conflicts

/-! ### External database session (persistence collaborator) -/

/-- Modelled from the spec: the external SQLAlchemy `db.session` used by
`save_timetable` — repository code outside `src/` (the Flask-SQLAlchemy
collaborator).  It holds committed rows, pending added rows, and a flag
saying whether the next commit raises; `commit` moves pending rows to
committed atomically, `rollback` discards pending rows. -/
structure DBSession where
  committed : List TimeSlot
  pending : List TimeSlot
  commit_fails : Bool
deriving Repr, DecidableEq

/-- `db.session.add(slot)`. -/
def DBSession.add (db : DBSession) (slot : TimeSlot) : DBSession :=
  { db with pending := db.pending ++ [slot] }

/-- `db.session.commit()`: all-or-nothing. -/
def DBSession.commit (db : DBSession) : Except String DBSession :=
  if db.commit_fails then .error "commit failed"
  else .ok { db with committed := db.committed ++ db.pending, pending := [] }

/-- `db.session.rollback()`. -/
def DBSession.rollback (db : DBSession) : DBSession :=
  { db with pending := [] }

/-- `save_timetable`: add every generated slot, commit, and return the
generated count; on failure roll back and return 0.  The generator state
is read, never written, so it is returned unchanged. -/
def save_timetable (st : GenState) (db : DBSession) :
    Nat × DBSession × GenState :=
  let db1 := st.generated_slots.foldl DBSession.add db
  match db1.commit with
  | .ok db2 => (st.generated_slots.length, db2, st)
  | .error _ => (0, db1.rollback, st)

/-! ### Conflict detector -/

/-- One entry of the detector's `self.conflicts` list (the identifying
name fields of the Python dict are folded into the description). -/
structure ConflictEntry where
  ctype : String
  severity : String
  description : String
deriving Repr, DecidableEq

/-- The pairwise SQL filter `start_time < slot.end_time AND end_time >
slot.start_time`. -/
def detector_overlaps (start1 end1 start2 end2 : Nat) : Bool :=
  start1 < end2 && end1 > start2

/-- The `overlapping` query of the pairwise detectors: all other slots
sharing the keyed resource and day whose window overlaps. -/
def overlappingBy (field : TimeSlot → Nat) (timeslots : List TimeSlot)
    (slot : TimeSlot) : List TimeSlot :=
  timeslots.filter (fun other =>
    other.id != slot.id && field other == field slot
      && other.day_of_week == slot.day_of_week
      && detector_overlaps other.start_time other.end_time
          slot.start_time slot.end_time)

/-- `pair_key = tuple(sorted((slot.id, conflict_slot.id)))`. -/
def pairKey (i j : Nat) : Nat × Nat :=
  if i ≤ j then (i, j) else (j, i)

/-- The detector state: `checked_pairs` (a set, modelled as a
duplicate-free list in insertion order) and the accumulated conflict
entries. -/
structure PairScanState where
  checked_pairs : List (Nat × Nat)
  conflicts : List ConflictEntry
deriving Repr, DecidableEq

/-- The `for conflict_slot in overlapping` loop: skip pairs already
checked, else record the pair key and append one conflict entry. -/
def recordPairs (entry : ConflictEntry) (slot : TimeSlot) :
    List TimeSlot → PairScanState → PairScanState
  | [], st => st
  | conflict_slot :: rest, st =>
    let key := pairKey slot.id conflict_slot.id
    if key ∈ st.checked_pairs then
      recordPairs entry slot rest st
    else
      recordPairs entry slot rest
        { checked_pairs := st.checked_pairs ++ [key],
          conflicts := st.conflicts ++ [entry] }

/-- The shared shape of `detect_room_conflicts` and
`detect_teacher_conflicts`: for every slot, find the overlapping slots
keyed by `field`, deduplicate by sorted pair key and append entries. -/
def pairScan (field : TimeSlot → Nat) (entry : ConflictEntry)
    (timeslots : List TimeSlot) : PairScanState :=
  timeslots.foldl
    (fun st slot => recordPairs entry slot (overlappingBy field timeslots slot) st)
    ⟨[], []⟩

/-- The entry appended for a room double-booking. -/
def room_conflict_entry : ConflictEntry :=
  ⟨"room_conflict", "critical", "Salle reservee en double"⟩

/-- The entry appended for a teacher double-booking. -/
def teacher_conflict_entry : ConflictEntry :=
  ⟨"teacher_conflict", "critical", "Enseignant a deux cours en meme temps"⟩

/-- `detect_room_conflicts` (full scan state, keyed on `room_id`). -/
def room_scan (timeslots : List TimeSlot) : PairScanState :=
  pairScan (fun s => s.room_id) room_conflict_entry timeslots

/-- `detect_teacher_conflicts` (full scan state, keyed on `teacher_id`). -/
def teacher_scan (timeslots : List TimeSlot) : PairScanState :=
  pairScan (fun s => s.teacher_id) teacher_conflict_entry timeslots

/-- The room-conflict entries returned by `detect_room_conflicts`. -/
def detect_room_conflicts (timeslots : List TimeSlot) : List ConflictEntry :=
  (room_scan timeslots).conflicts

/-- The teacher-conflict entries returned by `detect_teacher_conflicts`. -/
def detect_teacher_conflicts (timeslots : List TimeSlot) : List ConflictEntry :=
  (teacher_scan timeslots).conflicts

/-- The entry appended for an availability violation (severity high). -/
def availability_conflict_entry : ConflictEntry :=
  ⟨"availability_conflict", "high", "Enseignant non disponible a cette heure"⟩

/-- The `is_valid` computation of `detect_availability_conflicts`: the
FIRST availability row matching teacher and day (`.first()`) must exist,
be available, and fully contain the slot's window. -/
def availValid (avails : List TeacherAvailability) (slot : TimeSlot) : Bool :=
  match (avails.filter (fun a =>
      a.teacher_id == slot.teacher_id
        && a.day_of_week == slot.day_of_week)).head? with
  | some avail =>
    avail.is_available && avail.start_time ≤ slot.start_time
      && slot.end_time ≤ avail.end_time
  | none => false

/-- `detect_availability_conflicts`: skip slots with a falsy teacher id,
flag every remaining slot whose `is_valid` check fails. -/
def detect_availability_conflicts (avails : List TeacherAvailability) :
    List TimeSlot → List ConflictEntry
  | [] => []
  | slot :: rest =>
    if slot.teacher_id != 0 && !(availValid avails slot) then
      availability_conflict_entry :: detect_availability_conflicts avails rest
    else
      detect_availability_conflicts avails rest

/-- Formalisation of the words of the availability claim (to be compared
with `availValid`): the assignment is flagged unless exactly one
matching available window exists for that teacher and day whose window
fully contains the assignment's window. -/
def specAvailabilityFlagged (avails : List TeacherAvailability)
    (slot : TimeSlot) : Bool :=
  (avails.filter (fun a =>
      a.teacher_id == slot.teacher_id && a.day_of_week == slot.day_of_week
        && a.is_available && a.start_time ≤ slot.start_time
        && slot.end_time ≤ a.end_time)).length != 1

/-! ### Conflict predicates and generator invariants -/

/-- Two assignments double-book a room: same room, same day, overlapping
windows (in the generator's overlap semantics). -/
def roomClash (a b : TimeSlot) : Prop :=
  a.room_id = b.room_id ∧ a.day_of_week = b.day_of_week ∧
    is_overlap a.start_time a.end_time b.start_time b.end_time = true

/-- Two assignments double-book a teacher. -/
def teacherClash (a b : TimeSlot) : Prop :=
  a.teacher_id = b.teacher_id ∧ a.day_of_week = b.day_of_week ∧
    is_overlap a.start_time a.end_time b.start_time b.end_time = true

/-- Two assignments double-book a (non-null) group. -/
def groupClash (a b : TimeSlot) : Prop :=
  a.group_id = b.group_id ∧ a.group_id ≠ none ∧ a.day_of_week = b.day_of_week ∧
    is_overlap a.start_time a.end_time b.start_time b.end_time = true

/-- No double-booking of any kind between two assignments. -/
def NoClash (a b : TimeSlot) : Prop :=
  ¬roomClash a b ∧ ¬teacherClash a b ∧ ¬groupClash a b

/-- What the generator guarantees of each slot it creates: the stored
end time respects the ceiling, the course is in a catalog group's
program, the room comes from the lab-matched pool, and the teacher is a
qualified teacher passing the declared-availability check. -/
def SlotOK (cat : Catalog) (slot : TimeSlot) : Prop :=
  slot.end_time ≤ 1020 ∧
  ∃ g ∈ cat.groups, ∃ c ∈ g.courses,
    c.id = slot.course_id ∧ slot.group_id = some g.id ∧
    (∃ r ∈ cat.rooms, r.id = slot.room_id ∧
      ((r.room_type == "Lab") = c.requires_lab)) ∧
    (∃ t ∈ c.teachers, t.id = slot.teacher_id ∧
      check_teacher_preferences cat.availabilities t.id slot.day_of_week
        slot.start_time slot.end_time = true)

/-- The run invariant: generated slots are pairwise clash-free, each is
clash-free against every persisted slot, each satisfies `SlotOK`, and
the failure counter equals the number of failure records. -/
def GenInv (cat : Catalog) (st : GenState) : Prop :=
  st.generated_slots.Pairwise NoClash ∧
  (∀ a ∈ st.generated_slots, ∀ b ∈ cat.persisted, NoClash a b) ∧
  (∀ s ∈ st.generated_slots, SlotOK cat s) ∧
  st.conflicts.length = st.failed_count

/-! ### Concrete data for witnesses and counterexamples -/

/-- A qualified teacher with no declared availability. -/
def wTeacher : Teacher := ⟨1, "T1"⟩

/-- A one-hour course taught by `wTeacher`. -/
def wCourse : Course := ⟨1, "C1", some 60, false, 1, [wTeacher]⟩

/-- A group of department 1 whose program is `[wCourse]`. -/
def wGroup : Group := ⟨1, "G1", 1, 30, [wCourse]⟩

/-- A non-lab room. -/
def wRoom : Room := ⟨1, "R1", 30, "Classroom"⟩

/-- A minimal catalog: one group, one course, one room, nothing persisted. -/
def wCat : Catalog := ⟨[wGroup], [wRoom], [], []⟩

/-- A scope targeting all groups of department 1. -/
def wCfg : GenConfig := ⟨1, "S1", 0⟩

/-- The slot the trivial-oracle run over `wCat` produces. -/
def wSlot : TimeSlot := ⟨0, 1, some 1, 1, 1, 0, 480, 540⟩

/-- A 24-hour course: its true end time exceeds 17:00 from every start. -/
def cxCourse : Course := ⟨1, "C1", some 1440, false, 1, [wTeacher]⟩

/-- A group whose program is the 24-hour course. -/
def cxGroup : Group := ⟨1, "G1", 1, 30, [cxCourse]⟩

/-- The catalog exercising the wrap-around end time. -/
def cxCat : Catalog := ⟨[cxGroup], [wRoom], [], []⟩

/-- The degenerate slot the run over `cxCat` produces: it starts and
ends at 08:00. -/
def cxSlot : TimeSlot := ⟨0, 1, some 1, 1, 1, 0, 480, 480⟩

/-- An available Monday 08:00-10:00 window of teacher 1. -/
def cxAvailRow : TeacherAvailability := ⟨1, 0, 480, 600, true⟩

/-- Two identical matching available windows: more than one containing
window exists. -/
def cxAvails : List TeacherAvailability := [cxAvailRow, cxAvailRow]

/-- A Monday 08:00-09:00 assignment of teacher 1. -/
def cxSlot6 : TimeSlot := ⟨10, 1, some 1, 1, 1, 0, 480, 540⟩

/-- Two persisted slots in room 1 on Monday overlapping by one hour. -/
def wSlotA : TimeSlot := ⟨1, 1, some 1, 1, 1, 0, 480, 600⟩

/-- Second slot of the overlapping pair (distinct id and course). -/
def wSlotB : TimeSlot := ⟨2, 2, some 1, 1, 1, 0, 540, 660⟩

/-- A course with an empty qualified-teacher set. -/
def ntCourse : Course := ⟨2, "C2", some 60, false, 1, []⟩

/-- A group whose program is only the teacherless course. -/
def ntGroup : Group := ⟨1, "G1", 1, 30, [ntCourse]⟩

/-- The catalog exercising the no-teacher failure path. -/
def ntCat : Catalog := ⟨[ntGroup], [wRoom], [], []⟩

/-- A generator state holding one generated slot, ready to be saved. -/
def wGenState : GenState := ⟨[wSlot], [], 1, 0, initial_days, 2⟩

/-- A fresh database session whose commit succeeds. -/
def wDBok : DBSession := ⟨[], [], false⟩

/-- A fresh database session whose commit raises. -/
def wDBfail : DBSession := ⟨[], [], true⟩

/-- The teacher-qualification property of one assignment, as the claim
states it: the teacher is in the course's qualified set and the window
is contained in a declared available window for that day, or the teacher
has no declared window at all; a teacher with windows only on other days
is never assigned. -/
def TeacherOK (cat : Catalog) (slot : TimeSlot) : Prop :=
  ∃ gr ∈ cat.groups, ∃ c ∈ gr.courses, c.id = slot.course_id ∧
    ∃ t ∈ c.teachers, t.id = slot.teacher_id ∧
    ((∃ a ∈ cat.availabilities, a.teacher_id = slot.teacher_id ∧
        a.day_of_week = slot.day_of_week ∧ a.is_available = true ∧
        a.start_time ≤ slot.start_time ∧ slot.end_time ≤ a.end_time) ∨
      (∀ a ∈ cat.availabilities, a.teacher_id ≠ slot.teacher_id)) ∧
    ((∃ a ∈ cat.availabilities, a.teacher_id = slot.teacher_id) →
      ∃ a ∈ cat.availabilities, a.teacher_id = slot.teacher_id ∧
        a.day_of_week = slot.day_of_week ∧ a.is_available = true ∧
        a.start_time ≤ slot.start_time ∧ slot.end_time ≤ a.end_time)

/-- The lab-partition property of one assignment: the assigned room is a
Lab room exactly when the course requires a lab. -/
def LabOK (cat : Catalog) (slot : TimeSlot) : Prop :=
  ∃ gr ∈ cat.groups, ∃ c ∈ gr.courses, c.id = slot.course_id ∧
    ∃ r ∈ cat.rooms, r.id = slot.room_id ∧
      ((r.room_type = "Lab") ↔ c.requires_lab = true)

/-! ## Basic lemmas -/

theorem Oracle.triv_lawful : Oracle.triv.Lawful :=
  ⟨fun _ l => List.Perm.refl l, fun _ l => List.Perm.refl l⟩

theorem is_overlap_symm (s1 e1 s2 e2 : Nat) :
    is_overlap s1 e1 s2 e2 = is_overlap s2 e2 s1 e1 := by
  simp [is_overlap, Nat.max_comm, Nat.min_comm]

theorem NoClash_symm {a b : TimeSlot} (h : NoClash a b) : NoClash b a := by
  obtain ⟨hr, ht, hg⟩ := h
  refine ⟨fun c => hr ?_, fun c => ht ?_, fun c => hg ?_⟩
  · exact ⟨c.1.symm, c.2.1.symm, by rw [is_overlap_symm]; exact c.2.2⟩
  · exact ⟨c.1.symm, c.2.1.symm, by rw [is_overlap_symm]; exact c.2.2⟩
  · exact ⟨c.1.symm, c.1 ▸ c.2.1, c.2.2.1.symm, by rw [is_overlap_symm]; exact c.2.2.2⟩

theorem check_room_busy_false {persisted generated : List TimeSlot}
    {rid day s e : Nat}
    (h : check_room_busy persisted generated rid day s e = false) :
    ∀ b, (b ∈ generated ∨ b ∈ persisted) →
      ¬(b.room_id = rid ∧ b.day_of_week = day ∧
        is_overlap s e b.start_time b.end_time = true) := by
  intro b hb hc
  obtain ⟨h1, h2, h3⟩ := hc
  simp only [check_room_busy, Bool.or_eq_false_iff, List.any_eq_false] at h
  rcases hb with hb | hb
  · exact h.1 b hb (by simp [h1, h2, h3])
  · exact h.2 b hb (by simp [h1, h2, h3])

theorem check_teacher_busy_false {persisted generated : List TimeSlot}
    {tid day s e : Nat}
    (h : check_teacher_busy persisted generated tid day s e = false) :
    ∀ b, (b ∈ generated ∨ b ∈ persisted) →
      ¬(b.teacher_id = tid ∧ b.day_of_week = day ∧
        is_overlap s e b.start_time b.end_time = true) := by
  intro b hb hc
  obtain ⟨h1, h2, h3⟩ := hc
  simp only [check_teacher_busy, Bool.or_eq_false_iff, List.any_eq_false] at h
  rcases hb with hb | hb
  · exact h.1 b hb (by simp [h1, h2, h3])
  · exact h.2 b hb (by simp [h1, h2, h3])

theorem check_group_busy_false {persisted generated : List TimeSlot}
    {gid day s e : Nat}
    (h : check_group_busy persisted generated gid day s e = false) :
    ∀ b, (b ∈ generated ∨ b ∈ persisted) →
      ¬(b.group_id = some gid ∧ b.day_of_week = day ∧
        is_overlap s e b.start_time b.end_time = true) := by
  intro b hb hc
  obtain ⟨h1, h2, h3⟩ := hc
  simp only [check_group_busy, Bool.or_eq_false_iff, List.any_eq_false] at h
  rcases hb with hb | hb
  · exact h.1 b hb (by simp [h1, h2, h3])
  · exact h.2 b hb (by simp [h1, h2, h3])

theorem newSlot_NoClash {persisted generated : List TimeSlot}
    {gid rid tid cid day s e : Nat}
    (hg : check_group_busy persisted generated gid day s e = false)
    (hr : check_room_busy persisted generated rid day s e = false)
    (ht : check_teacher_busy persisted generated tid day s e = false)
    {b : TimeSlot} (hb : b ∈ generated ∨ b ∈ persisted) :
    NoClash
      { id := 0, course_id := cid, group_id := some gid, teacher_id := tid,
        room_id := rid, day_of_week := day, start_time := s, end_time := e }
      b := by
  refine ⟨?_, ?_, ?_⟩
  · rintro ⟨h1, h2, h3⟩
    exact check_room_busy_false hr b hb ⟨h1.symm, h2.symm, h3⟩
  · rintro ⟨h1, h2, h3⟩
    exact check_teacher_busy_false ht b hb ⟨h1.symm, h2.symm, h3⟩
  · rintro ⟨h1, _, h2, h3⟩
    exact check_group_busy_false hg b hb ⟨h1.symm, h2.symm, h3⟩

theorem check_teacher_preferences_true_iff
    (avails : List TeacherAvailability) (tid day s e : Nat) :
    check_teacher_preferences avails tid day s e = true ↔
      ((∃ a ∈ avails, a.teacher_id = tid ∧ a.day_of_week = day ∧
          a.is_available = true ∧ a.start_time ≤ s ∧ e ≤ a.end_time) ∨
        (∀ a ∈ avails, a.teacher_id ≠ tid)) := by
  simp only [check_teacher_preferences]
  split
  next hemp =>
    rw [List.isEmpty_iff, List.filter_eq_nil_iff] at hemp
    rw [List.isEmpty_iff, List.filter_eq_nil_iff]
    constructor
    · intro h
      right
      intro a ha
      simpa using h a ha
    · rintro (⟨a, ha, h1, h2, _⟩ | h)
      · exact absurd (by simp [h1, h2]) (hemp a ha)
      · intro a ha
        simpa using h a ha
  next hemp =>
    rw [List.any_eq_true]
    constructor
    · rintro ⟨a, ha, hr⟩
      rw [List.mem_filter] at ha
      obtain ⟨ha, hp⟩ := ha
      simp only [Bool.and_eq_true, beq_iff_eq] at hp
      simp only [Bool.and_eq_true, decide_eq_true_eq] at hr
      left
      exact ⟨a, ha, hp.1, hp.2, hr.1.1, hr.1.2, hr.2⟩
    · rintro (⟨a, ha, h1, h2, h3, h4, h5⟩ | h)
      · refine ⟨a, List.mem_filter.mpr ⟨ha, by simp [h1, h2]⟩, by simp [h3, h4, h5]⟩
      · exfalso
        apply hemp
        rw [List.isEmpty_iff, List.filter_eq_nil_iff]
        intro a ha hpa
        simp only [Bool.and_eq_true, beq_iff_eq] at hpa
        exact h a ha hpa.1

/-! ## Invariant preservation through the generator -/

theorem tryStarts_inv (cat : Catalog) (group : Group) (course : Course)
    (suitable_rooms : List Room) (day duration_min : Nat)
    (hg : group ∈ cat.groups) (hc : course ∈ group.courses)
    (hrooms : ∀ r ∈ suitable_rooms,
      r ∈ cat.rooms ∧ ((r.room_type == "Lab") = course.requires_lab))
    (starts : List Nat) :
    ∀ (st : GenState), GenInv cat st →
      GenInv cat (tryStarts cat.persisted cat.availabilities group course
        suitable_rooms day duration_min starts st).1 := by
  induction starts with
  | nil => intro st h; exact h
  | cons start_time rest ih =>
    intro st h
    simp only [tryStarts]
    split
    next => exact ih st h
    next hend =>
      split
      next => exact ih st h
      next hgb =>
        split
        next => exact ih st h
        next selected_room hfr =>
          split
          next => exact ih st h
          next selected_teacher hft =>
            have hgb' : check_group_busy cat.persisted st.generated_slots group.id
                day start_time (add_minutes start_time duration_min) = false := by
              simpa using hgb
            have hrmem := List.mem_of_find?_eq_some hfr
            have hrb' : check_room_busy cat.persisted st.generated_slots
                selected_room.id day start_time
                (add_minutes start_time duration_min) = false := by
              simpa using List.find?_some hfr
            have htmem := List.mem_of_find?_eq_some hft
            have hft' := List.find?_some hft
            simp only [Bool.and_eq_true, Bool.not_eq_true'] at hft'
            refine ⟨?_, ?_, ?_, h.2.2.2⟩
            · rw [List.pairwise_append]
              refine ⟨h.1, List.pairwise_singleton _ _, ?_⟩
              intro a ha b hb
              rw [List.mem_singleton] at hb
              subst hb
              exact NoClash_symm (newSlot_NoClash hgb' hrb' hft'.1 (Or.inl ha))
            · intro a ha b hb
              rcases List.mem_append.mp ha with ha | ha
              · exact h.2.1 a ha b hb
              · rw [List.mem_singleton] at ha
                subst ha
                exact newSlot_NoClash hgb' hrb' hft'.1 (Or.inr hb)
            · intro x hx
              rcases List.mem_append.mp hx with hx | hx
              · exact h.2.2.1 x hx
              · rw [List.mem_singleton] at hx
                subst hx
                refine ⟨Nat.not_lt.mp hend, group, hg, course, hc, rfl, rfl,
                  ⟨selected_room, (hrooms _ hrmem).1, rfl, (hrooms _ hrmem).2⟩,
                  ⟨selected_teacher, htmem, rfl, hft'.2⟩⟩

theorem tryDays_inv (o : Oracle) (cat : Catalog) (group : Group)
    (course : Course) (suitable_rooms : List Room) (duration_min : Nat)
    (hg : group ∈ cat.groups) (hc : course ∈ group.courses)
    (hrooms : ∀ r ∈ suitable_rooms,
      r ∈ cat.rooms ∧ ((r.room_type == "Lab") = course.requires_lab))
    (days : List Nat) :
    ∀ (st : GenState), GenInv cat st →
      GenInv cat (tryDays o cat.persisted cat.availabilities group course
        suitable_rooms duration_min days st).1 := by
  induction days with
  | nil => intro st h; exact h
  | cons day rest ih =>
    intro st h
    simp only [tryDays]
    have h1 := tryStarts_inv cat group course suitable_rooms day duration_min
      hg hc hrooms (o.shuffleNats st.ctr slot_starts)
      { st with ctr := st.ctr + 1 } h
    split
    next st2 heq =>
      rw [heq] at h1
      exact h1
    next st2 heq =>
      rw [heq] at h1
      exact ih st2 h1

theorem placeSession_inv (o : Oracle) (hl : o.Lawful) (cat : Catalog)
    (group : Group) (course : Course) (duration_min : Nat)
    (hg : group ∈ cat.groups) (hc : course ∈ group.courses)
    (st : GenState) (h : GenInv cat st) :
    GenInv cat (placeSession o cat group course duration_min st) := by
  simp only [placeSession]
  have hrooms : ∀ r ∈ o.shuffleRooms st.ctr (suitable_rooms_of cat.rooms course),
      r ∈ cat.rooms ∧ ((r.room_type == "Lab") = course.requires_lab) := by
    intro r hr
    rw [(hl.rooms_perm _ _).mem_iff] at hr
    rw [suitable_rooms_of, List.mem_filter] at hr
    exact ⟨hr.1, by simpa using hr.2⟩
  split
  next =>
    refine ⟨h.1, h.2.1, h.2.2.1, ?_⟩
    simp [h.2.2.2]
  next =>
    have h1 := tryDays_inv o cat group course _ duration_min hg hc hrooms
      (o.shuffleNats (st.ctr + 1) st.days)
      { st with days := o.shuffleNats (st.ctr + 1) st.days, ctr := st.ctr + 2 } h
    split
    next st2 heq =>
      rw [heq] at h1
      exact h1
    next st2 heq =>
      rw [heq] at h1
      refine ⟨h1.1, h1.2.1, h1.2.2.1, ?_⟩
      simp [h1.2.2.2]

theorem placeSessions_inv (o : Oracle) (hl : o.Lawful) (cat : Catalog)
    (group : Group) (course : Course) (duration_min : Nat)
    (hg : group ∈ cat.groups) (hc : course ∈ group.courses)
    (n : Nat) :
    ∀ (st : GenState), GenInv cat st →
      GenInv cat (placeSessions o cat group course duration_min n st) := by
  induction n with
  | zero => intro st h; exact h
  | succ m ih =>
    intro st h
    exact ih _ (placeSession_inv o hl cat group course duration_min hg hc st h)

theorem processCourses_inv (o : Oracle) (hl : o.Lawful) (cat : Catalog)
    (group : Group) (hg : group ∈ cat.groups) (courses : List Course)
    (hcs : ∀ c ∈ courses, c ∈ group.courses) :
    ∀ (st : GenState), GenInv cat st →
      GenInv cat (processCourses o cat group courses st) := by
  induction courses with
  | nil => intro st h; exact h
  | cons c rest ih =>
    intro st h
    exact ih (fun x hx => hcs x (List.mem_cons_of_mem c hx)) _
      (placeSessions_inv o hl cat group c (duration_of c) hg
        (hcs c (List.mem_cons_self c rest)) c.weekly_sessions st h)

theorem processGroups_inv (o : Oracle) (hl : o.Lawful) (cat : Catalog)
    (groups : List Group) (hgs : ∀ g ∈ groups, g ∈ cat.groups) :
    ∀ (st : GenState), GenInv cat st →
      GenInv cat (processGroups o cat groups st) := by
  induction groups with
  | nil => intro st h; exact h
  | cons g rest ih =>
    intro st h
    exact ih (fun x hx => hgs x (List.mem_cons_of_mem g hx)) _
      (processCourses_inv o hl cat g (hgs g (List.mem_cons_self g rest)) g.courses
        (fun c hc => hc) st h)

theorem generate_inv {o : Oracle} (hl : o.Lawful) (cfg : GenConfig)
    (cat : Catalog) {g f : Nat} {ts : List TimeSlot} {cf : List FailureEntry}
    (h : generate o cfg cat = .ok g f ts cf) :
    ts.Pairwise NoClash ∧ (∀ a ∈ ts, ∀ b ∈ cat.persisted, NoClash a b) ∧
      (∀ s ∈ ts, SlotOK cat s) ∧ cf.length = f := by
  simp only [generate] at h
  split at h
  next => exact absurd h (by simp)
  next =>
    have hG : ∀ gr ∈ targetGroups cfg cat, gr ∈ cat.groups := by
      intro gr hgr
      rw [targetGroups] at hgr
      split at hgr <;> exact List.mem_of_mem_filter hgr
    have hInv := processGroups_inv o hl cat (targetGroups cfg cat) hG initState
      ⟨List.Pairwise.nil, by simp [initState], by simp [initState], rfl⟩
    cases h
    exact hInv

/-! ## Shape of one placement step -/

theorem tryStarts_shape (persisted : List TimeSlot)
    (avails : List TeacherAvailability) (group : Group) (course : Course)
    (suitable_rooms : List Room) (day duration_min : Nat)
    (starts : List Nat) :
    ∀ st : GenState,
      tryStarts persisted avails group course suitable_rooms day duration_min
          starts st = (st, false) ∨
      ∃ slot,
        tryStarts persisted avails group course suitable_rooms day duration_min
            starts st =
          ({ st with
              generated_slots := st.generated_slots ++ [slot],
              generated_count := st.generated_count + 1 }, true) := by
  induction starts with
  | nil => intro st; exact Or.inl rfl
  | cons start_time rest ih =>
    intro st
    simp only [tryStarts]
    split
    next => exact ih st
    next =>
      split
      next => exact ih st
      next =>
        split
        next => exact ih st
        next selected_room hfr =>
          split
          next => exact ih st
          next selected_teacher hft => exact Or.inr ⟨_, rfl⟩

theorem tryDays_shape (o : Oracle) (persisted : List TimeSlot)
    (avails : List TeacherAvailability) (group : Group) (course : Course)
    (suitable_rooms : List Room) (duration_min : Nat) (days : List Nat) :
    ∀ st : GenState, ∃ st2 b,
      tryDays o persisted avails group course suitable_rooms duration_min
          days st = (st2, b) ∧
      st2.conflicts = st.conflicts ∧ st2.failed_count = st.failed_count ∧
      st2.days = st.days ∧
      ((b = false ∧ st2.generated_slots = st.generated_slots ∧
          st2.generated_count = st.generated_count) ∨
        (b = true ∧ ∃ slot,
          st2.generated_slots = st.generated_slots ++ [slot] ∧
          st2.generated_count = st.generated_count + 1)) := by
  induction days with
  | nil =>
    intro st
    exact ⟨st, false, rfl, rfl, rfl, rfl, Or.inl ⟨rfl, rfl, rfl⟩⟩
  | cons day rest ih =>
    intro st
    simp only [tryDays]
    rcases tryStarts_shape persisted avails group course suitable_rooms day
        duration_min (o.shuffleNats st.ctr slot_starts)
        { st with ctr := st.ctr + 1 } with heq | ⟨slot, heq⟩
    · rw [heq]
      obtain ⟨st2, b, heq2, h1, h2, h3, hcase⟩ := ih { st with ctr := st.ctr + 1 }
      exact ⟨st2, b, heq2, h1, h2, h3, hcase⟩
    · rw [heq]
      exact ⟨_, true, rfl, rfl, rfl, rfl, Or.inr ⟨rfl, slot, rfl, rfl⟩⟩

theorem placeSession_no_teacher (o : Oracle) (cat : Catalog) (group : Group)
    (course : Course) (duration_min : Nat) (st : GenState)
    (h : course.teachers.isEmpty = true) :
    placeSession o cat group course duration_min st =
      { st with
          days := o.shuffleNats (st.ctr + 1) st.days, ctr := st.ctr + 2,
          conflicts := st.conflicts ++ [no_teacher_failure course group],
          failed_count := st.failed_count + 1 } := by
  simp only [placeSession, h, if_true]

theorem placeSession_shape (o : Oracle) (cat : Catalog) (group : Group)
    (course : Course) (duration_min : Nat) (st : GenState) :
    (∃ slot,
      (placeSession o cat group course duration_min st).generated_slots =
          st.generated_slots ++ [slot] ∧
      (placeSession o cat group course duration_min st).conflicts = st.conflicts ∧
      (placeSession o cat group course duration_min st).failed_count = st.failed_count ∧
      (placeSession o cat group course duration_min st).generated_count =
          st.generated_count + 1) ∨
    ((placeSession o cat group course duration_min st).generated_slots =
        st.generated_slots ∧
      (∃ entry, (placeSession o cat group course duration_min st).conflicts =
        st.conflicts ++ [entry]) ∧
      (placeSession o cat group course duration_min st).failed_count =
          st.failed_count + 1 ∧
      (placeSession o cat group course duration_min st).generated_count =
          st.generated_count) := by
  simp only [placeSession]
  split
  next =>
    right
    exact ⟨rfl, ⟨no_teacher_failure course group, rfl⟩, rfl, rfl⟩
  next =>
    obtain ⟨st2, b, heq, hconf, hfail, _, hcase⟩ :=
      tryDays_shape o cat.persisted cat.availabilities group course
        (o.shuffleRooms st.ctr (suitable_rooms_of cat.rooms course)) duration_min
        (o.shuffleNats (st.ctr + 1) st.days)
        { st with days := o.shuffleNats (st.ctr + 1) st.days, ctr := st.ctr + 2 }
    rw [heq]
    rcases hcase with ⟨hb, hslots, hgc⟩ | ⟨hb, slot, hslots, hgc⟩
    · subst hb
      right
      exact ⟨hslots, ⟨no_slot_failure course group,
        congrArg (fun l => l ++ [no_slot_failure course group]) hconf⟩,
        congrArg (fun n => n + 1) hfail, hgc⟩
    · subst hb
      left
      exact ⟨slot, hslots, hconf, hfail, hgc⟩

/-! ## The end-time ceiling and the wrapped grid -/

theorem add_minutes_grid (d : Nat) : ∃ s ∈ slot_starts, add_minutes s d ≤ 1020 := by
  by_cases h : add_minutes 480 d ≤ 1020
  · exact ⟨480, by simp [slot_starts], h⟩
  · refine ⟨1020, by simp [slot_starts], ?_⟩
    simp only [add_minutes] at h ⊢
    omega

/-! ## Detector lemmas -/

theorem detect_availability_eq (avails : List TeacherAvailability) :
    ∀ ts : List TimeSlot,
      detect_availability_conflicts avails ts =
        (ts.filter (fun s => s.teacher_id != 0 && !(availValid avails s))).map
          (fun _ => availability_conflict_entry) := by
  intro ts
  induction ts with
  | nil => rfl
  | cons slot rest ih =>
    by_cases h : (slot.teacher_id != 0 && !(availValid avails slot)) = true
    · simp [detect_availability_conflicts, h, ih]
    · simp [detect_availability_conflicts, h, ih]

theorem availValid_no_rows (avails : List TeacherAvailability) (slot : TimeSlot)
    (h : ∀ a ∈ avails, a.teacher_id ≠ slot.teacher_id) :
    availValid avails slot = false := by
  unfold availValid
  have hnil : avails.filter (fun a =>
      a.teacher_id == slot.teacher_id && a.day_of_week == slot.day_of_week) = [] := by
    rw [List.filter_eq_nil_iff]
    intro a ha hpa
    simp only [Bool.and_eq_true, beq_iff_eq] at hpa
    exact h a ha hpa.1
  rw [hnil]
  rfl

theorem detector_overlaps_comm (s1 e1 s2 e2 : Nat) :
    detector_overlaps s1 e1 s2 e2 = detector_overlaps s2 e2 s1 e1 := by
  simp only [detector_overlaps]
  exact Bool.and_comm _ _

/-! ## Pair-scan dedup lemmas -/

theorem recordPairs_checked_mono (entry : ConflictEntry) (slot : TimeSlot) :
    ∀ (l : List TimeSlot) (st : PairScanState) (k : Nat × Nat),
      k ∈ st.checked_pairs → k ∈ (recordPairs entry slot l st).checked_pairs := by
  intro l
  induction l with
  | nil => intro st k hk; exact hk
  | cons c rest ih =>
    intro st k hk
    simp only [recordPairs]
    split
    next => exact ih st k hk
    next => exact ih _ k (List.mem_append.mpr (Or.inl hk))

theorem recordPairs_mem (entry : ConflictEntry) (slot : TimeSlot) :
    ∀ (l : List TimeSlot) (st : PairScanState) (c : TimeSlot), c ∈ l →
      pairKey slot.id c.id ∈ (recordPairs entry slot l st).checked_pairs := by
  intro l
  induction l with
  | nil => intro st c hc; exact absurd hc (List.not_mem_nil c)
  | cons x rest ih =>
    intro st c hc
    simp only [recordPairs]
    rcases List.mem_cons.mp hc with h | h
    · subst h
      split
      next hin => exact recordPairs_checked_mono entry slot rest st _ hin
      next hnin =>
        exact recordPairs_checked_mono entry slot rest _ _
          (List.mem_append.mpr (Or.inr (List.mem_singleton.mpr rfl)))
    · split
      next => exact ih st c h
      next => exact ih _ c h

theorem recordPairs_nodup (entry : ConflictEntry) (slot : TimeSlot) :
    ∀ (l : List TimeSlot) (st : PairScanState),
      st.checked_pairs.Nodup → (recordPairs entry slot l st).checked_pairs.Nodup := by
  intro l
  induction l with
  | nil => intro st h; exact h
  | cons c rest ih =>
    intro st h
    simp only [recordPairs]
    split
    next => exact ih st h
    next hnin =>
      refine ih _ ?_
      simp only [List.nodup_append, List.nodup_singleton, true_and]
      exact ⟨h, by simpa using hnin⟩

theorem recordPairs_len (entry : ConflictEntry) (slot : TimeSlot) :
    ∀ (l : List TimeSlot) (st : PairScanState),
      st.conflicts.length = st.checked_pairs.length →
      (recordPairs entry slot l st).conflicts.length =
        (recordPairs entry slot l st).checked_pairs.length := by
  intro l
  induction l with
  | nil => intro st h; exact h
  | cons c rest ih =>
    intro st h
    simp only [recordPairs]
    split
    next => exact ih st h
    next => exact ih _ (by simp [h])

theorem scanFold_checked_mono (field : TimeSlot → Nat) (entry : ConflictEntry)
    (all : List TimeSlot) :
    ∀ (l : List TimeSlot) (st : PairScanState) (k : Nat × Nat),
      k ∈ st.checked_pairs →
      k ∈ (l.foldl (fun st slot =>
        recordPairs entry slot (overlappingBy field all slot) st) st).checked_pairs := by
  intro l
  induction l with
  | nil => intro st k hk; exact hk
  | cons x rest ih =>
    intro st k hk
    simp only [List.foldl_cons]
    exact ih _ k (recordPairs_checked_mono entry x _ st k hk)

theorem scanFold_mem (field : TimeSlot → Nat) (entry : ConflictEntry)
    (all : List TimeSlot) :
    ∀ (l : List TimeSlot) (st : PairScanState) (a : TimeSlot), a ∈ l →
      ∀ c ∈ overlappingBy field all a,
        pairKey a.id c.id ∈ (l.foldl (fun st slot =>
          recordPairs entry slot (overlappingBy field all slot) st) st).checked_pairs := by
  intro l
  induction l with
  | nil => intro st a ha; exact absurd ha (List.not_mem_nil a)
  | cons x rest ih =>
    intro st a ha c hc
    simp only [List.foldl_cons]
    rcases List.mem_cons.mp ha with h | h
    · subst h
      exact scanFold_checked_mono field entry all rest _ _
        (recordPairs_mem entry a _ st c hc)
    · exact ih _ a h c hc

theorem scanFold_nodup (field : TimeSlot → Nat) (entry : ConflictEntry)
    (all : List TimeSlot) :
    ∀ (l : List TimeSlot) (st : PairScanState),
      st.checked_pairs.Nodup →
      (l.foldl (fun st slot =>
        recordPairs entry slot (overlappingBy field all slot) st) st).checked_pairs.Nodup := by
  intro l
  induction l with
  | nil => intro st h; exact h
  | cons x rest ih =>
    intro st h
    simp only [List.foldl_cons]
    exact ih _ (recordPairs_nodup entry x _ st h)

theorem scanFold_len (field : TimeSlot → Nat) (entry : ConflictEntry)
    (all : List TimeSlot) :
    ∀ (l : List TimeSlot) (st : PairScanState),
      st.conflicts.length = st.checked_pairs.length →
      (l.foldl (fun st slot =>
        recordPairs entry slot (overlappingBy field all slot) st) st).conflicts.length =
      (l.foldl (fun st slot =>
        recordPairs entry slot (overlappingBy field all slot) st) st).checked_pairs.length := by
  intro l
  induction l with
  | nil => intro st h; exact h
  | cons x rest ih =>
    intro st h
    simp only [List.foldl_cons]
    exact ih _ (recordPairs_len entry x _ st h)

theorem count_key_one {α : Type} [BEq α] [LawfulBEq α] :
    ∀ {l : List α} {a : α}, l.Nodup → a ∈ l → l.count a = 1 := by
  intro l
  induction l with
  | nil => intro a _ ha; exact absurd ha (List.not_mem_nil a)
  | cons x xs ih =>
    intro a hd ha
    rw [List.count_cons]
    rcases List.mem_cons.mp ha with h | h
    · subst h
      rw [List.count_eq_zero.mpr (List.nodup_cons.mp hd).1]
      simp
    · rw [ih (List.nodup_cons.mp hd).2 h]
      have hx : ¬(x == a) = true := by
        intro hx
        exact (List.nodup_cons.mp hd).1 (by rw [eq_of_beq hx]; exact h)
      simp [hx]

theorem pairScan_count_one (field : TimeSlot → Nat) (entry : ConflictEntry)
    (ts : List TimeSlot) (a b : TimeSlot) (ha : a ∈ ts) (hb : b ∈ ts)
    (hid : a.id ≠ b.id) (hf : field a = field b)
    (hd : a.day_of_week = b.day_of_week)
    (ho : detector_overlaps a.start_time a.end_time b.start_time b.end_time = true) :
    (pairScan field entry ts).checked_pairs.count (pairKey a.id b.id) = 1 := by
  have hbmem : b ∈ overlappingBy field ts a := by
    rw [overlappingBy, List.mem_filter]
    refine ⟨hb, ?_⟩
    have hne : b.id ≠ a.id := fun hh => hid hh.symm
    rw [detector_overlaps_comm] at ho
    simp [hf.symm, hd.symm, ho, hne]
  have hmem := scanFold_mem field entry ts ts ⟨[], []⟩ a ha b hbmem
  have hnd := scanFold_nodup field entry ts ts ⟨[], []⟩ List.nodup_nil
  exact count_key_one hnd hmem

theorem pairScan_len (field : TimeSlot → Nat) (entry : ConflictEntry)
    (ts : List TimeSlot) :
    (pairScan field entry ts).conflicts.length =
      (pairScan field entry ts).checked_pairs.length :=
  scanFold_len field entry ts ts ⟨[], []⟩ rfl

/-! ## Database session lemmas -/

theorem foldl_add_pending :
    ∀ (slots : List TimeSlot) (db : DBSession),
      slots.foldl DBSession.add db = { db with pending := db.pending ++ slots } := by
  intro slots
  induction slots with
  | nil => intro db; simp
  | cons x rest ih =>
    intro db
    simp only [List.foldl_cons]
    rw [ih]
    simp [DBSession.add]

theorem labflag_iff (r : Room) (course : Course) :
    ((r.room_type == "Lab") == course.requires_lab) = true ↔
      ((r.room_type = "Lab") ↔ course.requires_lab = true) := by
  cases h : course.requires_lab <;> simp [h]

/-! ## Claim theorems -/

/-- C1: in every run of the generator (with any shuffle outcomes), the
union of the newly generated assignments and the pre-existing persisted
assignments is pairwise free of room, teacher and non-null-group
double-bookings, provided the persisted set itself was free of them. -/
theorem claim_C1_no_double_booking (o : Oracle) (cfg : GenConfig)
    (cat : Catalog) (hl : o.Lawful) (hp : cat.persisted.Pairwise NoClash)
    (g f : Nat) (ts : List TimeSlot) (cf : List FailureEntry)
    (h : generate o cfg cat = .ok g f ts cf) :
    (ts ++ cat.persisted).Pairwise NoClash := by
  obtain ⟨h1, h2, _, _⟩ := generate_inv hl cfg cat h
  rw [List.pairwise_append]
  exact ⟨h1, hp, h2⟩

/-- Witness for C1 at a concrete one-course catalog. -/
theorem claim_C1_witness :
    (([wSlot] : List TimeSlot) ++ wCat.persisted).Pairwise NoClash :=
  claim_C1_no_double_booking Oracle.triv wCfg wCat Oracle.triv_lawful
    List.Pairwise.nil 1 0 [wSlot] [] (by decide)

/-- C2: every generated assignment's teacher belongs to the course's
qualified-teacher set, and its window is contained in a declared
available window of that teacher for that day or the teacher has no
availability row at all; a teacher with rows only for other days is
never assigned on a row-less day. -/
theorem claim_C2_teacher_qualification (o : Oracle) (cfg : GenConfig)
    (cat : Catalog) (hl : o.Lawful) (g f : Nat) (ts : List TimeSlot)
    (cf : List FailureEntry) (h : generate o cfg cat = .ok g f ts cf) :
    ∀ slot ∈ ts, TeacherOK cat slot := by
  intro slot hs
  obtain ⟨_, _, hOK, _⟩ := generate_inv hl cfg cat h
  obtain ⟨_, gr, hgr, c, hc, hcid, _, _, t, ht, htid, hpref⟩ := hOK slot hs
  rw [check_teacher_preferences_true_iff] at hpref
  rw [htid] at hpref
  refine ⟨gr, hgr, c, hc, hcid, t, ht, htid, hpref, ?_⟩
  rintro ⟨a0, ha0, hteq⟩
  rcases hpref with hl2 | hr2
  · exact hl2
  · exact absurd hteq (hr2 a0 ha0)

/-- Witness for C2 at a concrete one-course catalog. -/
theorem claim_C2_witness : TeacherOK wCat wSlot :=
  claim_C2_teacher_qualification Oracle.triv wCfg wCat Oracle.triv_lawful
    1 0 [wSlot] [] (by decide) wSlot (List.mem_singleton.mpr rfl)

/-- C3: every generated assignment's room is a Lab room exactly when the
course requires a lab, and the candidate room pool contains a room iff
it is a catalog room whose lab flag matches — no capacity condition. -/
theorem claim_C3_lab_partition (o : Oracle) (cfg : GenConfig)
    (cat : Catalog) (hl : o.Lawful) (g f : Nat) (ts : List TimeSlot)
    (cf : List FailureEntry) (h : generate o cfg cat = .ok g f ts cf) :
    (∀ slot ∈ ts, LabOK cat slot) ∧
    (∀ (rooms : List Room) (course : Course) (r : Room),
      r ∈ suitable_rooms_of rooms course ↔
        (r ∈ rooms ∧ ((r.room_type = "Lab") ↔ course.requires_lab = true))) := by
  constructor
  · intro slot hs
    obtain ⟨_, _, hOK, _⟩ := generate_inv hl cfg cat h
    obtain ⟨_, gr, hgr, c, hc, hcid, _, ⟨r, hrm, hrid, hflag⟩, _⟩ := hOK slot hs
    exact ⟨gr, hgr, c, hc, hcid, r, hrm, hrid,
      (labflag_iff r c).mp (beq_iff_eq.mpr hflag)⟩
  · intro rooms course r
    rw [suitable_rooms_of, List.mem_filter, labflag_iff]

/-- Witness for C3 at a concrete one-course catalog. -/
theorem claim_C3_witness :
    LabOK wCat wSlot ∧
    (wRoom ∈ suitable_rooms_of [wRoom] wCourse ↔
      (wRoom ∈ [wRoom] ∧ ((wRoom.room_type = "Lab") ↔ wCourse.requires_lab = true))) :=
  ⟨(claim_C3_lab_partition Oracle.triv wCfg wCat Oracle.triv_lawful
      1 0 [wSlot] [] (by decide)).1 wSlot (List.mem_singleton.mpr rfl),
   (claim_C3_lab_partition Oracle.triv wCfg wCat Oracle.triv_lawful
      1 0 [wSlot] [] (by decide)).2 [wRoom] wCourse wRoom⟩

/-- C4 counterexample: for the empty window [5,5) against [0,10) the
detector's pairwise condition holds although max(s1,s2) < min(e1,e2)
fails (and the generator's test is false), so the two overlap tests are
not both equivalent to the max/min characterisation on all windows. -/
theorem claim_C4_counterexample :
    detector_overlaps 5 5 0 10 = true ∧ ¬(max 5 0 < min 5 10) ∧
    is_overlap 5 5 0 10 = false := by decide

/-- C4 amended: the generator's test equals the max/min characterisation
for all windows; the detector's condition equals it for non-empty
windows (s1 < e1 and s2 < e2); and windows that merely touch at an
endpoint are never considered overlapping by either test. -/
theorem claim_C4_amended (s1 e1 s2 e2 : Nat) :
    (is_overlap s1 e1 s2 e2 = true ↔ max s1 s2 < min e1 e2) ∧
    (s1 < e1 → s2 < e2 →
      (detector_overlaps s1 e1 s2 e2 = true ↔ max s1 s2 < min e1 e2)) ∧
    (e1 = s2 ∨ e2 = s1 →
      is_overlap s1 e1 s2 e2 = false ∧ detector_overlaps s1 e1 s2 e2 = false) := by
  refine ⟨by simp [is_overlap], ?_, ?_⟩
  · intro h1 h2
    simp only [detector_overlaps, Bool.and_eq_true, decide_eq_true_eq]
    omega
  · rintro (h | h) <;> constructor <;>
      simp only [is_overlap, detector_overlaps, decide_eq_false_iff_not,
        Bool.and_eq_false_iff, decide_eq_true_eq] <;> omega

/-- Witness for C4 at concrete windows: [08:00,09:00) against
[08:30,09:30), and the touching pair [08:00,09:00), [09:00,10:00). -/
theorem claim_C4_witness :
    ((detector_overlaps 480 540 510 570 = true) ↔ max 480 510 < min 540 570) ∧
    (is_overlap 480 540 540 600 = false ∧ detector_overlaps 480 540 540 600 = false) :=
  ⟨(claim_C4_amended 480 540 510 570).2.1 (by decide) (by decide),
   (claim_C4_amended 480 540 540 600).2.2 (Or.inl rfl)⟩

/-- C5 counterexample: a 24-hour course, whose true end time
start + duration exceeds 17:00 for every candidate start, does not
produce a recorded failure: the run generates one assignment with zero
failures, and that assignment's stored end time equals its start time
(the wrapped value of `add_minutes`). -/
theorem claim_C5_counterexample :
    (slot_starts.all fun s => decide (1020 < s + 1440)) = true ∧
    generate Oracle.triv wCfg cxCat = .ok 1 0 [cxSlot] [] ∧
    cxSlot.end_time = cxSlot.start_time := by
  refine ⟨by decide, by decide, rfl⟩

/-- C5 amended: the generator computes the stored end time as
(start + duration) mod 24h and rejects a candidate exactly when that
wrapped value exceeds 17:00, so every generated assignment's stored end
time is at or before 17:00; but for every duration some grid start
passes the wrapped ceiling, so the ceiling alone never exhausts all
candidates, and durations that wrap past midnight can yield an
assignment (with end time at or before start time) instead of a
failure. -/
theorem claim_C5_amended (o : Oracle) (cfg : GenConfig) (cat : Catalog)
    (hl : o.Lawful) :
    (∀ (g f : Nat) (ts : List TimeSlot) (cf : List FailureEntry),
      generate o cfg cat = .ok g f ts cf → ∀ slot ∈ ts, slot.end_time ≤ 1020) ∧
    (∀ d : Nat, ∃ s ∈ slot_starts, add_minutes s d ≤ 1020) := by
  constructor
  · intro g f ts cf h slot hs
    exact ((generate_inv hl cfg cat h).2.2.1 slot hs).1
  · exact add_minutes_grid

/-- Witness for C5 amended at the concrete wrap-around catalog. -/
theorem claim_C5_amended_witness :
    cxSlot.end_time ≤ 1020 ∧ ∃ s ∈ slot_starts, add_minutes s 1440 ≤ 1020 :=
  ⟨(claim_C5_amended Oracle.triv wCfg cxCat Oracle.triv_lawful).1
      1 0 [cxSlot] [] (by decide) cxSlot (List.mem_singleton.mpr rfl),
   (claim_C5_amended Oracle.triv wCfg cxCat Oracle.triv_lawful).2 1440⟩

/-- C6 counterexample: with two identical matching available windows
both containing the assignment's window, "exactly one matching available
window" fails, so the claim demands a flag, yet the detector (which only
inspects the first row) reports nothing. -/
theorem claim_C6_counterexample :
    detect_availability_conflicts cxAvails [cxSlot6] = [] ∧
    specAvailabilityFlagged cxAvails cxSlot6 = true := by
  exact ⟨rfl, rfl⟩

/-- C6 amended: the detector flags exactly those assignments with a
teacher for which the FIRST availability row matching teacher and day
does not exist, is not available, or does not fully contain the window
(severity high); a teacher with no availability row anywhere is always
flagged — no free pass. -/
theorem claim_C6_amended (avails : List TeacherAvailability)
    (ts : List TimeSlot) :
    detect_availability_conflicts avails ts =
      (ts.filter (fun s => s.teacher_id != 0 && !(availValid avails s))).map
        (fun _ => availability_conflict_entry) ∧
    availability_conflict_entry.severity = "high" ∧
    (∀ slot ∈ ts, slot.teacher_id ≠ 0 →
      (∀ a ∈ avails, a.teacher_id ≠ slot.teacher_id) →
      slot ∈ ts.filter (fun s => s.teacher_id != 0 && !(availValid avails s))) := by
  refine ⟨detect_availability_eq avails ts, rfl, ?_⟩
  intro slot hs hne0 hnone
  rw [List.mem_filter]
  refine ⟨hs, ?_⟩
  rw [availValid_no_rows avails slot hnone]
  simp [hne0]

/-- Witness for C6 amended: a slot whose teacher has no availability
rows at all is flagged. -/
theorem claim_C6_witness :
    detect_availability_conflicts [] [cxSlot6] =
      (([cxSlot6].filter (fun s => s.teacher_id != 0 && !(availValid [] s))).map
        (fun _ => availability_conflict_entry)) ∧
    availability_conflict_entry.severity = "high" ∧
    cxSlot6 ∈ [cxSlot6].filter (fun s => s.teacher_id != 0 && !(availValid [] s)) :=
  ⟨(claim_C6_amended [] [cxSlot6]).1, (claim_C6_amended [] [cxSlot6]).2.1,
   (claim_C6_amended [] [cxSlot6]).2.2 cxSlot6 (List.mem_singleton.mpr rfl)
     (by decide) (by simp)⟩

/-- C7: the returned failed count equals the number of accumulated
failure records; a course with no qualified teacher makes the session
record exactly one no-teacher failure without attempting placement; and
every session instance either appends exactly one assignment and no
failure, or appends no assignment and exactly one failure record while
the run continues (the step is a total function). -/
theorem claim_C7_failure_accounting (o : Oracle) (hl : o.Lawful) :
    (∀ (cfg : GenConfig) (cat : Catalog) (g f : Nat) (ts : List TimeSlot)
        (cf : List FailureEntry),
      generate o cfg cat = .ok g f ts cf → cf.length = f) ∧
    (∀ (cat : Catalog) (group : Group) (course : Course) (duration_min : Nat)
        (st : GenState), course.teachers.isEmpty = true →
      placeSession o cat group course duration_min st =
        { st with
            days := o.shuffleNats (st.ctr + 1) st.days, ctr := st.ctr + 2,
            conflicts := st.conflicts ++ [no_teacher_failure course group],
            failed_count := st.failed_count + 1 }) ∧
    (∀ (cat : Catalog) (group : Group) (course : Course) (duration_min : Nat)
        (st : GenState),
      (∃ slot,
        (placeSession o cat group course duration_min st).generated_slots =
            st.generated_slots ++ [slot] ∧
        (placeSession o cat group course duration_min st).conflicts = st.conflicts ∧
        (placeSession o cat group course duration_min st).failed_count = st.failed_count ∧
        (placeSession o cat group course duration_min st).generated_count =
            st.generated_count + 1) ∨
      ((placeSession o cat group course duration_min st).generated_slots =
          st.generated_slots ∧
        (∃ entry, (placeSession o cat group course duration_min st).conflicts =
          st.conflicts ++ [entry]) ∧
        (placeSession o cat group course duration_min st).failed_count =
            st.failed_count + 1 ∧
        (placeSession o cat group course duration_min st).generated_count =
            st.generated_count)) := by
  refine ⟨?_, ?_, ?_⟩
  · intro cfg cat g f ts cf h
    exact (generate_inv hl cfg cat h).2.2.2
  · intro cat group course duration_min st h
    exact placeSession_no_teacher o cat group course duration_min st h
  · intro cat group course duration_min st
    exact placeSession_shape o cat group course duration_min st

/-- Witness for C7 at the teacherless-course catalog. -/
theorem claim_C7_witness :
    ([no_teacher_failure ntCourse ntGroup].length = 1) ∧
    placeSession Oracle.triv ntCat ntGroup ntCourse 60 initState =
      { initState with
          days := initial_days, ctr := 2,
          conflicts := [no_teacher_failure ntCourse ntGroup],
          failed_count := 1 } :=
  ⟨(claim_C7_failure_accounting Oracle.triv Oracle.triv_lawful).1 wCfg ntCat
      0 1 [] [no_teacher_failure ntCourse ntGroup] (by decide),
   (claim_C7_failure_accounting Oracle.triv Oracle.triv_lawful).2.1 ntCat
      ntGroup ntCourse 60 initState rfl⟩

/-- C8: saving is atomic: with a fresh session, a successful commit
persists every generated slot and returns their count, while a failing
commit persists nothing, returns 0, and the generator state (the
in-memory generated set) is returned unchanged in both cases. -/
theorem claim_C8_atomic_persistence (st : GenState) (db : DBSession)
    (hp : db.pending = []) :
    (db.commit_fails = false →
      save_timetable st db =
        (st.generated_slots.length,
         { committed := db.committed ++ st.generated_slots, pending := [],
           commit_fails := false }, st)) ∧
    (db.commit_fails = true →
      save_timetable st db =
        (0,
         { committed := db.committed, pending := [],
           commit_fails := true }, st)) := by
  constructor
  · intro hc
    simp [save_timetable, foldl_add_pending, DBSession.commit, hc, hp]
  · intro hc
    simp [save_timetable, foldl_add_pending, DBSession.commit,
      DBSession.rollback, hc, hp]

/-- Witness for C8 at a one-slot state and fresh sessions. -/
theorem claim_C8_witness :
    save_timetable wGenState wDBok = (1, ⟨[wSlot], [], false⟩, wGenState) ∧
    save_timetable wGenState wDBfail = (0, ⟨[], [], true⟩, wGenState) :=
  ⟨(claim_C8_atomic_persistence wGenState wDBok rfl).1 rfl,
   (claim_C8_atomic_persistence wGenState wDBfail rfl).2 rfl⟩

/-- C9: every unordered pair of distinct assignments sharing room and
day with overlapping windows is recorded under its sorted pair key
exactly once by the room scan (likewise for teacher pairs), and the
number of emitted conflict entries equals the number of recorded pair
keys — one entry per pair, never two mirrored entries. -/
theorem claim_C9_pair_dedup (ts : List TimeSlot) :
    (∀ a ∈ ts, ∀ b ∈ ts, a.id ≠ b.id → a.room_id = b.room_id →
      a.day_of_week = b.day_of_week →
      detector_overlaps a.start_time a.end_time b.start_time b.end_time = true →
      (room_scan ts).checked_pairs.count (pairKey a.id b.id) = 1) ∧
    (∀ a ∈ ts, ∀ b ∈ ts, a.id ≠ b.id → a.teacher_id = b.teacher_id →
      a.day_of_week = b.day_of_week →
      detector_overlaps a.start_time a.end_time b.start_time b.end_time = true →
      (teacher_scan ts).checked_pairs.count (pairKey a.id b.id) = 1) ∧
    (detect_room_conflicts ts).length = (room_scan ts).checked_pairs.length ∧
    (detect_teacher_conflicts ts).length = (teacher_scan ts).checked_pairs.length := by
  refine ⟨?_, ?_, pairScan_len _ _ ts, pairScan_len _ _ ts⟩
  · intro a ha b hb hid hr hd ho
    exact pairScan_count_one (fun s => s.room_id) room_conflict_entry ts a b
      ha hb hid hr hd ho
  · intro a ha b hb hid ht hd ho
    exact pairScan_count_one (fun s => s.teacher_id) teacher_conflict_entry ts
      a b ha hb hid ht hd ho

/-- Witness for C9 at two overlapping same-room same-teacher slots. -/
theorem claim_C9_witness :
    (room_scan [wSlotA, wSlotB]).checked_pairs.count
        (pairKey wSlotA.id wSlotB.id) = 1 ∧
    (teacher_scan [wSlotA, wSlotB]).checked_pairs.count
        (pairKey wSlotA.id wSlotB.id) = 1 ∧
    (detect_room_conflicts [wSlotA, wSlotB]).length =
      (room_scan [wSlotA, wSlotB]).checked_pairs.length :=
  ⟨(claim_C9_pair_dedup [wSlotA, wSlotB]).1 wSlotA (by decide) wSlotB
      (by decide) (by decide) rfl rfl (by decide),
   (claim_C9_pair_dedup [wSlotA, wSlotB]).2.1 wSlotA (by decide) wSlotB
      (by decide) (by decide) rfl rfl (by decide),
   (claim_C9_pair_dedup [wSlotA, wSlotB]).2.2.1⟩

/-- C10: the generator's result is independent of the semester argument,
and when a non-zero group id is supplied it is also independent of the
department id (the target group is fetched by id alone). -/
theorem claim_C10_scope_independence (o : Oracle) (cat : Catalog) :
    (∀ (d gid : Nat) (s1 s2 : String),
      generate o ⟨d, s1, gid⟩ cat = generate o ⟨d, s2, gid⟩ cat) ∧
    (∀ (d1 d2 gid : Nat) (s : String), gid ≠ 0 →
      generate o ⟨d1, s, gid⟩ cat = generate o ⟨d2, s, gid⟩ cat) := by
  constructor
  · intro d gid s1 s2
    rfl
  · intro d1 d2 gid s h
    have hb : (gid != 0) = true := by simpa using h
    simp only [generate, targetGroups, hb, if_true]

/-- Witness for C10 at concrete scopes. -/
theorem claim_C10_witness :
    generate Oracle.triv ⟨1, "A", 1⟩ wCat = generate Oracle.triv ⟨1, "B", 1⟩ wCat ∧
    generate Oracle.triv ⟨1, "A", 1⟩ wCat = generate Oracle.triv ⟨2, "A", 1⟩ wCat :=
  ⟨(claim_C10_scope_independence Oracle.triv wCat).1 1 1 "A" "B",
   (claim_C10_scope_independence Oracle.triv wCat).2 1 2 1 "A" (by decide)⟩

end Emploi
